import Mathlib

/-!
Shallow embedding of `src/utils.ts` of the sls-ts-plugin repository:
entry-point resolution (`extractFileNames`), compiler-config resolution
(`getTypescriptConfig` / `makeDefaultTypescriptConfig`) and the compilation
runner (`run`).  JS strings are modelled as Lean `String` (char-level ops go
through `String.data`), the filesystem and the external TypeScript engine are
modelled as explicit environment records, and JS exceptions as `Except`.
-/

namespace SlsTsPlugin

/-! ### String helpers mirroring the JS string idioms -/

/-- `path.join(a, b)` for the simple relative paths this code builds. -/
def pathJoin (a b : String) : String := a ++ "/" ++ b

/-- JS `s.split(".")` at the character-list level. -/
def splitDot : List Char → List (List Char)
  | [] => [[]]
  | c :: rest =>
    if c = '.' then [] :: splitDot rest
    else
      match splitDot rest with
      | [] => [[c]]
      | x :: xs => (c :: x) :: xs

/-- Search for the largest index `i ≤ n` at which `pat` occurs in `s`. -/
def lastIndexOfAux (s pat : List Char) : Nat → Option Nat
  | 0 => if pat.isPrefixOf s then some 0 else none
  | n + 1 =>
    if pat.isPrefixOf (s.drop (n + 1)) then some (n + 1)
    else lastIndexOfAux s pat n

/-- JS `s.lastIndexOf(pat)`, `none` standing for the JS result `-1`. -/
def lastIndexOfList (s pat : List Char) : Option Nat :=
  lastIndexOfAux s pat s.length

/-- JS `s.substring(0, n)`. -/
def strTake (s : String) (n : Nat) : String := String.mk (s.data.take n)

/-- JS `s.endsWith(suffix)` (also the semantics of a `/…$/` regex test). -/
def jsEndsWith (s suf : String) : Bool := suf.data.isSuffixOf s.data

/-- JS `m.replace(/\.js$/, ".ts")`. -/
def replaceTrailingJsWithTs (m : String) : String :=
  if jsEndsWith m ".js" then strTake m (m.data.length - 3) ++ ".ts" else m

/-! ### Data model for `extractFileNames` -/

/-- The slice of a serverless function definition read by this code. -/
structure ServerlessTSFunction where
  handler : String
deriving DecidableEq, Repr

/-- The three distinct throw sites of `extractFileNames`. -/
inductive ExtractError where
  | manifestEntrypointMissing (main : String)
  | handlerNameUnresolvable (handler : String)
  | handlerFileMissing (fileName : String)
deriving DecidableEq, Repr

/-- Filesystem environment for `extractFileNames`: `fse.existsSync`, and the
`main` field of the JSON-parsed `package.json` (`none` = field absent). -/
structure FsEnv where
  existsSync : String → Bool
  packageMain : Option String

/-- `packageFile.main ? packageFile.main.replace(/\.js$/, ".ts") : "index.ts"`;
the JS truthiness test makes an empty `main` fall back to `"index.ts"` too. -/
def googleMain (packageMain : Option String) : String :=
  match packageMain with
  | some m => if m == "" then "index.ts" else replaceTrailingJsWithTs m
  | none => "index.ts"

/-- The per-handler body of the `.map` in `extractFileNames`: split off the
last dot-segment as the exported name (throwing when it is empty), take the
text before its rightmost occurrence as the file stem, then probe
`<stem>ts` and `<stem>js` on disk. -/
def resolveHandler (env : FsEnv) (cwd h : String) : Except ExtractError String :=
  match (splitDot h.data).getLast? with
  | none => .error (.handlerNameUnresolvable h)
  | some fnName =>
    if fnName.isEmpty then .error (.handlerNameUnresolvable h)
    else
      let fileName : String :=
        match lastIndexOfList h.data fnName with
        | some i => strTake h i
        | none => ""
      if env.existsSync (pathJoin cwd (fileName ++ "ts")) then .ok (fileName ++ "ts")
      else if env.existsSync (pathJoin cwd (fileName ++ "js")) then .ok (fileName ++ "js")
      else .error (.handlerFileMissing fileName)

/-- The generic (non-google) tail of `extractFileNames`:
`_.values(functions).map((fn) => fn.handler).map(...)` with the first throw
aborting the whole batch; `_.values(undefined)` is `[]`. -/
def extractFromFunctions (env : FsEnv) (cwd : String)
    (functions : Option (List ServerlessTSFunction)) : Except ExtractError (List String) :=
  ((functions.getD []).map (fun fn => fn.handler)).mapM (fun h => resolveHandler env cwd h)

/-- `extractFileNames(cwd, provider, functions)`: the google special case
reads `<cwd>/package.json` when it exists; every other case (including google
without a manifest) falls through to handler-based resolution. -/
def extractFileNames (env : FsEnv) (cwd provider : String)
    (functions : Option (List ServerlessTSFunction)) : Except ExtractError (List String) :=
  if provider == "google" && env.existsSync (pathJoin cwd "package.json") then
    let main := googleMain env.packageMain
    if env.existsSync (pathJoin cwd main) then .ok [main]
    else .error (.manifestEntrypointMissing main)
  else
    extractFromFunctions env cwd functions

/-! ### Data model for the compiler configuration -/

/-- The `ModuleKind` members relevant to this code. -/
inductive ModuleKind where
  | None | CommonJS | AMD | UMD | ES2015 | ESNext
deriving DecidableEq, Repr

/-- The `ScriptTarget` members relevant to this code. -/
inductive ScriptTarget where
  | ES3 | ES5 | ES2015 | ES2020 | ESNext
deriving DecidableEq, Repr

/-- The `ModuleResolutionKind` members relevant to this code. -/
inductive ModuleResolutionKind where
  | Classic | NodeJs
deriving DecidableEq, Repr

/-- The slice of TypeScript `CompilerOptions` this code reads or writes;
every field is optional as in TypeScript, and `extra` stands for all other
properties an arbitrary options object may carry. -/
structure CompilerOptions where
  module : Option ModuleKind := none
  target : Option ScriptTarget := none
  lib : Option (List String) := none
  rootDir : Option String := none
  allowJs : Option Bool := none
  checkJs : Option Bool := none
  strict : Option Bool := none
  noImplicitAny : Option Bool := none
  strictNullChecks : Option Bool := none
  strictFunctionTypes : Option Bool := none
  strictBindCallApply : Option Bool := none
  strictPropertyInitialization : Option Bool := none
  noImplicitThis : Option Bool := none
  alwaysStrict : Option Bool := none
  noUnusedLocals : Option Bool := none
  noUnusedParameters : Option Bool := none
  noImplicitReturns : Option Bool := none
  noFallthroughCasesInSwitch : Option Bool := none
  moduleResolution : Option ModuleResolutionKind := none
  esModuleInterop : Option Bool := none
  experimentalDecorators : Option Bool := none
  emitDecoratorMetadata : Option Bool := none
  forceConsistentCasingInFileNames : Option Bool := none
  preserveConstEnums : Option Bool := none
  sourceMap : Option Bool := none
  listEmittedFiles : Option Bool := none
  extra : List (String × String) := []
deriving DecidableEq, Repr

/-- `makeDefaultTypescriptConfig()`: the hard-coded default configuration. -/
def makeDefaultTypescriptConfig : CompilerOptions :=
  { module := some .CommonJS
    target := some .ES5
    lib := some ["ES2020"]
    rootDir := some "./"
    allowJs := some true
    checkJs := some true
    strict := some true
    noImplicitAny := some true
    strictNullChecks := some true
    strictFunctionTypes := some true
    strictBindCallApply := some true
    strictPropertyInitialization := some true
    noImplicitThis := some true
    alwaysStrict := some true
    noUnusedLocals := some true
    noUnusedParameters := some true
    noImplicitReturns := some true
    noFallthroughCasesInSwitch := some true
    moduleResolution := some .NodeJs
    esModuleInterop := some true
    experimentalDecorators := some true
    emitDecoratorMetadata := some true
    forceConsistentCasingInFileNames := some true
    preserveConstEnums := some true
    sourceMap := some true }

/-- Result of `parseConfigFileTextToJson`: an opaque parsed-config payload
plus an optional error; the payload is never inspected here, only handed on. -/
structure JsonTextParseResult where
  config : String
  error : Option String

/-- Result of `parseJsonConfigFileContent`: a flat options object and the
list of validation errors. -/
structure ConfigFileParseResult where
  options : CompilerOptions
  errors : List String

/-- Environment for `getTypescriptConfig`: the filesystem reads and the two
external TypeScript parsing passes, plus `path.dirname` / `path.resolve`. -/
structure TsConfigEnv where
  existsSync : String → Bool
  readFileText : String → String
  parseTextToJson : String → String → JsonTextParseResult
  parseContent : String → String → ConfigFileParseResult
  dirname : String → String
  pathResolve : String → String

/-- The two throw sites of `getTypescriptConfig`. -/
inductive ConfigError where
  | parseError (e : String)
  | validationError (errors : List String)
deriving DecidableEq, Repr

/-- The info line logged when a local tsconfig is used. -/
def usingLocalMsg (configFilePath : String) : String :=
  "Using local tsconfig.json at \"" ++ configFilePath ++ "\""

/-- The warning logged when the local rootDir is overridden. -/
def rootDirWarning : String :=
  "Warning: \"rootDir\" from local tsconfig.json is overriden"

/-- `getTypescriptConfig(cwd, tsconfigFilePath, logger?)`.  The logger is
modelled by its presence flag plus the list of messages logged during the
call (returned alongside the options). -/
def getTypescriptConfig (env : TsConfigEnv) (cwd tsconfigFilePath : String)
    (hasLogger : Bool) : Except ConfigError (CompilerOptions × List String) :=
  let configFilePath := pathJoin cwd tsconfigFilePath
  if env.existsSync configFilePath then
    let configFileText := env.readFileText configFilePath
    let result := env.parseTextToJson configFilePath configFileText
    match result.error with
    | some e => .error (.parseError e)
    | none =>
      let configParseResult := env.parseContent result.config (env.dirname configFilePath)
      if configParseResult.errors.length > 0 then
        .error (.validationError configParseResult.errors)
      else
        let logs₁ := if hasLogger then [usingLocalMsg configFilePath] else []
        let warn : Bool :=
          match configParseResult.options.rootDir with
          | some r => r != "" && env.pathResolve r != env.pathResolve cwd && hasLogger
          | none => false
        let logs₂ := if warn then [rootDirWarning] else []
        .ok ({ configParseResult.options with rootDir := some cwd }, logs₁ ++ logs₂)
  else
    .ok (makeDefaultTypescriptConfig, [])

/-! ### Data model for the compilation runner -/

/-- The slice of a TypeScript `SourceFile` read by `run`. -/
structure SourceFile where
  fileName : String
  getLineAndCharacterOfPosition : Nat → Nat × Nat

/-- A diagnostic: optional source file, optional start offset, and the
already-flattened message text. -/
structure Diagnostic where
  file : Option SourceFile
  start : Option Nat
  messageText : String

/-- The emit result: skip flag, optional emitted-file list, diagnostics. -/
structure EmitResult where
  emitSkipped : Bool
  emittedFiles : Option (List String)
  diagnostics : List Diagnostic

/-- The program object built by `createProgram`, as observed by `run`:
its pre-emit diagnostics and the result of `program.emit()`. -/
structure Program where
  preEmitDiagnostics : List Diagnostic
  emitResult : EmitResult

/-- The single throw site of `run`. -/
inductive RunError where
  | compilationFailed
deriving DecidableEq, Repr

/-- The body of the `forEach` over diagnostics: print
`"<file> (<line+1>,<col+1>): <message>"` when `diagnostic.file` and
`diagnostic.start` are both truthy — a start offset of `0` is falsy in JS,
so it is skipped. -/
def renderDiagnostic (d : Diagnostic) : Option String :=
  match d.file, d.start with
  | some f, some s =>
    if s != 0 then
      let lc := f.getLineAndCharacterOfPosition s
      some (f.fileName ++ " (" ++ toString (lc.1 + 1) ++ "," ++ toString (lc.2 + 1) ++ "): "
        ++ d.messageText)
    else none
  | _, _ => none

/-- Everything observable about one call to `run`: the state of the caller's
options object after the call, the console lines printed, and the
return-or-throw outcome. -/
structure RunOutcome where
  options : CompilerOptions
  printed : List String
  value : Except RunError (Option (List String))

/-- `run(fileNames, options)`: mutate `options.listEmittedFiles = true`,
build the program through the external engine, print the located
diagnostics (pre-emit ones first, then emit ones), throw when
`emitResult.emitSkipped`, else return `emittedFiles?.filter(endsWith ".js")`. -/
def run (engine : List String → CompilerOptions → Program) (fileNames : List String)
    (options : CompilerOptions) : RunOutcome :=
  let options := { options with listEmittedFiles := some true }
  let program := engine fileNames options
  let emitResult := program.emitResult
  let allDiagnostics := program.preEmitDiagnostics ++ emitResult.diagnostics
  let printed := allDiagnostics.filterMap renderDiagnostic
  if emitResult.emitSkipped then
    { options := options, printed := printed, value := .error .compilationFailed }
  else
    { options := options, printed := printed,
      value := .ok (emitResult.emittedFiles.map (fun fs => fs.filter (fun f => jsEndsWith f ".js"))) }

/-! ### Lemmas about the handler-string algorithm -/


lemma splitDot_ne_nil (s : List Char) : splitDot s ≠ [] := by
  induction s with
  | nil => simp [splitDot]
  | cons c rest ih =>
    simp only [splitDot]
    by_cases hc : c = '.'
    · simp [hc]
    · rw [if_neg hc]
      rcases hsp : splitDot rest with _ | ⟨x, xs⟩
      · exact absurd hsp ih
      · simp

lemma splitDot_no_dot (s : List Char) (h : '.' ∉ s) : splitDot s = [s] := by
  induction s with
  | nil => rfl
  | cons c rest ih =>
    have hc : c ≠ '.' := fun e => h (by simp [e])
    have ih' := ih (fun m => h (List.mem_cons_of_mem _ m))
    simp only [splitDot]
    rw [if_neg hc, ih']

lemma splitDot_append_dot_length (s : List Char) :
    2 ≤ (splitDot (s ++ ['.'])).length := by
  induction s with
  | nil => decide
  | cons c rest ih =>
    simp only [List.cons_append, List.append_eq, splitDot]
    by_cases hc : c = '.'
    · rw [if_pos hc]
      simp only [List.length_cons]
      omega
    · rw [if_neg hc]
      rcases hsp : splitDot (rest ++ ['.']) with _ | ⟨x, xs⟩
      · exact absurd hsp (splitDot_ne_nil _)
      · rw [hsp] at ih
        simp only [List.length_cons] at ih ⊢
        omega

lemma splitDot_append_dot (s : List Char) :
    (splitDot (s ++ ['.'])).getLast? = some [] := by
  induction s with
  | nil => decide
  | cons c rest ih =>
    simp only [List.cons_append, List.append_eq, splitDot]
    rcases hsp : splitDot (rest ++ ['.']) with _ | ⟨x, xs⟩
    · exact absurd hsp (splitDot_ne_nil _)
    · have hlen := splitDot_append_dot_length rest
      rw [hsp] at hlen ih
      rcases xs with _ | ⟨y, ys⟩
      · simp at hlen
      · by_cases hc : c = '.'
        · rw [if_pos hc, List.getLast?_cons_cons]
          exact ih
        · rw [if_neg hc]
          rw [List.getLast?_cons_cons] at ih ⊢
          exact ih

lemma lastIndexOfAux_self (pat : List Char) (hp : pat ≠ []) :
    ∀ n, lastIndexOfAux pat pat n = some 0 := by
  intro n
  induction n with
  | zero =>
    have hpre : pat.isPrefixOf pat = true :=
      List.isPrefixOf_iff_prefix.mpr (List.prefix_refl pat)
    simp [lastIndexOfAux, hpre]
  | succ n ih =>
    have hfalse : pat.isPrefixOf (pat.drop (n + 1)) = false := by
      rcases hb : pat.isPrefixOf (pat.drop (n + 1)) with _ | _
      · rfl
      · have hle := (List.isPrefixOf_iff_prefix.mp hb).length_le
        rw [List.length_drop] at hle
        have hpos : 0 < pat.length := List.length_pos.mpr hp
        omega
    simp [lastIndexOfAux, hfalse, ih]

lemma lastIndexOfList_self (pat : List Char) (hp : pat ≠ []) :
    lastIndexOfList pat pat = some 0 :=
  lastIndexOfAux_self pat hp pat.length

lemma string_data_ne_nil (h : String) (hne : h ≠ "") : h.data ≠ [] := by
  intro e
  apply hne
  cases h with
  | mk l => cases e; rfl

lemma resolveHandler_no_dot (env : FsEnv) (cwd h : String) (hne : h ≠ "")
    (hd : '.' ∉ h.data)
    (hts : env.existsSync (pathJoin cwd "ts") = false)
    (hjs : env.existsSync (pathJoin cwd "js") = false) :
    resolveHandler env cwd h = .error (.handlerFileMissing "") := by
  have hdata := string_data_ne_nil h hne
  have hemp : h.data.isEmpty = false := by
    rcases hh : h.data with _ | ⟨c, l⟩
    · exact absurd hh hdata
    · rfl
  simp only [resolveHandler, splitDot_no_dot h.data hd, List.getLast?_singleton,
    hemp, Bool.false_eq_true, if_false, lastIndexOfList_self h.data hdata]
  have htk : strTake h 0 = "" := by
    cases h with
    | mk l => rfl
  rw [htk]
  have hts' : ("" : String) ++ "ts" = "ts" := rfl
  have hjs' : ("" : String) ++ "js" = "js" := rfl
  rw [hts', hjs', hts, hjs]
  simp

lemma resolveHandler_trailing_dot (env : FsEnv) (cwd h : String) (t : List Char)
    (hdt : h.data = t ++ ['.']) :
    resolveHandler env cwd h = .error (.handlerNameUnresolvable h) := by
  simp only [resolveHandler, hdt, splitDot_append_dot]
  rfl

/-! ### Entry-point resolution: claim theorems -/


lemma extractFileNames_not_google (env : FsEnv) (cwd provider : String)
    (functions : Option (List ServerlessTSFunction))
    (hp : (provider == "google") = false) :
    extractFileNames env cwd provider functions = extractFromFunctions env cwd functions := by
  simp [extractFileNames, hp]

lemma extractFromFunctions_singleton (env : FsEnv) (cwd : String)
    (fn : ServerlessTSFunction) :
    extractFromFunctions env cwd (some [fn]) =
      (resolveHandler env cwd fn.handler).map (fun a => [a]) := by
  simp only [extractFromFunctions, Option.getD_some, List.map_cons, List.map_nil,
    List.mapM_cons, List.mapM_nil]
  cases resolveHandler env cwd fn.handler <;> rfl

lemma resolveHandler_srcab (env : FsEnv) (cwd : String) :
    resolveHandler env cwd "src/a.b.handler" =
      if env.existsSync (pathJoin cwd "src/a.b.ts") then .ok "src/a.b.ts"
      else if env.existsSync (pathJoin cwd "src/a.b.js") then .ok "src/a.b.js"
      else .error (.handlerFileMissing "src/a.b.") := rfl

def emptyFs : FsEnv := { existsSync := fun _ => false, packageMain := none }

/-- Claim C1, counterexample: for the handler specifier `"handler"` (no `.` at
all) and a filesystem with no matching files, resolution fails with the
file-missing error, not with `HandlerNameUnresolvable` as the claim states:
the whole string is its own last dot-segment, so the name check passes and
the empty stem's disk probes fail instead. -/
theorem noDotFailsAsFileMissing :
    extractFileNames emptyFs "." "aws" (some [{ handler := "handler" }])
      = .error (.handlerFileMissing "")
    ∧ extractFileNames emptyFs "." "aws" (some [{ handler := "handler" }])
      ≠ .error (.handlerNameUnresolvable "handler") := by
  refine ⟨rfl, ?_⟩
  intro e
  rw [show extractFileNames emptyFs "." "aws" (some [{ handler := "handler" }])
      = .error (.handlerFileMissing "") from rfl] at e
  exact ExtractError.noConfusion (Except.error.inj e)

/-- Claim C1, amended: `HandlerNameUnresolvable` is raised exactly when the
segment after the final `.` is empty, i.e. when the specifier ends in `.`.
A specifier with no `.` at all has the whole string as its exported name and
an empty file stem, so generic resolution probes `<cwd>/ts` and `<cwd>/js`
and fails with `HandlerFileMissing` (empty stem) when neither exists. -/
theorem handlerErrorClassification :
    (∀ (env : FsEnv) (cwd provider h : String),
      (provider == "google") = false → h ≠ "" → '.' ∉ h.data →
      env.existsSync (pathJoin cwd "ts") = false →
      env.existsSync (pathJoin cwd "js") = false →
      extractFileNames env cwd provider (some [{ handler := h }])
        = .error (.handlerFileMissing ""))
    ∧ (∀ (env : FsEnv) (cwd provider h : String) (t : List Char),
      (provider == "google") = false → h.data = t ++ ['.'] →
      extractFileNames env cwd provider (some [{ handler := h }])
        = .error (.handlerNameUnresolvable h)) := by
  constructor
  · intro env cwd provider h hp hne hd hts hjs
    rw [extractFileNames_not_google env cwd provider _ hp,
      extractFromFunctions_singleton]
    dsimp only
    rw [resolveHandler_no_dot env cwd h hne hd hts hjs]
    rfl
  · intro env cwd provider h t hp hdt
    rw [extractFileNames_not_google env cwd provider _ hp,
      extractFromFunctions_singleton]
    dsimp only
    rw [resolveHandler_trailing_dot env cwd h t hdt]
    rfl

/-- Claim C1, witness: both parts of the amended classification evaluated at
concrete handlers `"abc"` and `"abc."` on an empty filesystem. -/
theorem handlerErrorClassificationWitness :
    extractFileNames emptyFs "." "aws" (some [{ handler := "abc" }])
      = .error (.handlerFileMissing "")
    ∧ extractFileNames emptyFs "." "aws" (some [{ handler := "abc." }])
      = .error (.handlerNameUnresolvable "abc.") := by
  constructor
  · exact handlerErrorClassification.1 emptyFs "." "aws" "abc"
      (by decide) (by decide) (by decide) rfl rfl
  · exact handlerErrorClassification.2 emptyFs "." "aws" "abc." "abc".data
      (by decide) (by decide)



/-- Claim C8: for handler `"src/a.b.handler"` the exported name is the last
dot-segment `handler`, the stem is the text before its rightmost occurrence,
`"src/a.b."` (trailing dot retained), and resolution probes `<stem>ts` first,
then `<stem>js`, returning the first that exists on disk. -/
theorem rightmostSplitResolution :
    ((splitDot "src/a.b.handler".data).getLast? = some "handler".data
      ∧ lastIndexOfList "src/a.b.handler".data "handler".data = some 8
      ∧ strTake "src/a.b.handler" 8 = "src/a.b.")
    ∧ (∀ (env : FsEnv) (cwd : String),
      env.existsSync (pathJoin cwd "src/a.b.ts") = true →
      extractFileNames env cwd "aws" (some [{ handler := "src/a.b.handler" }])
        = .ok ["src/a.b.ts"])
    ∧ (∀ (env : FsEnv) (cwd : String),
      env.existsSync (pathJoin cwd "src/a.b.ts") = false →
      env.existsSync (pathJoin cwd "src/a.b.js") = true →
      extractFileNames env cwd "aws" (some [{ handler := "src/a.b.handler" }])
        = .ok ["src/a.b.js"]) := by
  refine ⟨⟨by decide, by decide, by decide⟩, ?_, ?_⟩
  · intro env cwd hts
    rw [extractFileNames_not_google env cwd "aws" _ (by decide),
      extractFromFunctions_singleton]
    dsimp only
    rw [resolveHandler_srcab, if_pos hts]
    rfl
  · intro env cwd hts hjs
    rw [extractFileNames_not_google env cwd "aws" _ (by decide),
      extractFromFunctions_singleton]
    dsimp only
    rw [resolveHandler_srcab]
    rw [if_neg (by simp [hts]), if_pos hjs]
    rfl

def srcabFs : FsEnv := { existsSync := fun p => p == "./src/a.b.ts", packageMain := none }

/-- Claim C8, witness: on a filesystem where only `./src/a.b.ts` exists, the
handler `"src/a.b.handler"` resolves to `["src/a.b.ts"]`. -/
theorem rightmostSplitResolutionWitness :
    extractFileNames srcabFs "." "aws" (some [{ handler := "src/a.b.handler" }])
      = .ok ["src/a.b.ts"] :=
  rightmostSplitResolution.2.1 srcabFs "." rfl

/-- Claim C10: for every non-google target (and google without a manifest),
an absent or empty handler mapping resolves to the empty list with no error:
the result is `.ok []` for every filesystem environment, so no entry-point
probe can influence it. -/
theorem absentHandlersGiveEmptyList :
    ∀ (env : FsEnv) (cwd provider : String)
      (functions : Option (List ServerlessTSFunction)),
      ((provider == "google") = false
        ∨ env.existsSync (pathJoin cwd "package.json") = false) →
      (functions = none ∨ functions = some []) →
      extractFileNames env cwd provider functions = .ok [] := by
  intro env cwd provider functions hp hf
  have hgen : extractFromFunctions env cwd functions = .ok [] := by
    rcases hf with rfl | rfl <;> rfl
  rcases hp with hp | hp
  · rw [extractFileNames_not_google env cwd provider _ hp]
    exact hgen
  · rw [extractFileNames, if_neg (by simp [hp])]
    exact hgen

/-- Claim C10, witness: evaluated with an absent mapping under target `aws`
and with an empty mapping under target `google` without a manifest. -/
theorem absentHandlersGiveEmptyListWitness :
    extractFileNames emptyFs "." "aws" none = .ok []
    ∧ extractFileNames emptyFs "." "google" (some []) = .ok [] :=
  ⟨absentHandlersGiveEmptyList emptyFs "." "aws" none (Or.inl (by decide)) (Or.inl rfl),
   absentHandlersGiveEmptyList emptyFs "." "google" (some []) (Or.inr rfl) (Or.inr rfl)⟩

/-- Claim C5: with target `"google"` and a manifest whose `main` is
`"dist/app.js"` and with `dist/app.ts` on disk, resolution returns exactly
`["dist/app.ts"]` for every handler mapping; when the manifest names a main
whose `.js`-to-`.ts` rewrite does not exist under `cwd`, resolution fails
with the manifest-entrypoint error; with no manifest it falls through to
generic handler-based resolution. -/
theorem googleEntrypointRules :
    (∀ (env : FsEnv) (cwd : String) (functions : Option (List ServerlessTSFunction)),
      env.existsSync (pathJoin cwd "package.json") = true →
      env.packageMain = some "dist/app.js" →
      env.existsSync (pathJoin cwd "dist/app.ts") = true →
      extractFileNames env cwd "google" functions = .ok ["dist/app.ts"])
    ∧ (∀ (env : FsEnv) (cwd : String) (functions : Option (List ServerlessTSFunction)) (m : String),
      env.existsSync (pathJoin cwd "package.json") = true →
      env.packageMain = some m → m ≠ "" →
      env.existsSync (pathJoin cwd (replaceTrailingJsWithTs m)) = false →
      extractFileNames env cwd "google" functions
        = .error (.manifestEntrypointMissing (replaceTrailingJsWithTs m)))
    ∧ (∀ (env : FsEnv) (cwd : String) (functions : Option (List ServerlessTSFunction)),
      env.existsSync (pathJoin cwd "package.json") = false →
      extractFileNames env cwd "google" functions
        = extractFromFunctions env cwd functions) := by
  refine ⟨?_, ?_, ?_⟩
  · intro env cwd functions hpkg hmain happ
    rw [extractFileNames, if_pos (by simp [hpkg]), hmain]
    rw [show googleMain (some "dist/app.js") = "dist/app.ts" from rfl]
    rw [if_pos happ]
  · intro env cwd functions m hpkg hmain hm hmiss
    have hgm : googleMain (some m) = replaceTrailingJsWithTs m := by
      simp only [googleMain]
      rw [if_neg (by simp only [beq_iff_eq]; exact hm)]
    rw [extractFileNames, if_pos (by simp [hpkg]), hmain, hgm,
      if_neg (by rw [hmiss]; simp)]
  · intro env cwd functions hpkg
    rw [extractFileNames, if_neg (by simp [hpkg])]

def googleFs : FsEnv :=
  { existsSync := fun p => p == "./package.json" || p == "./dist/app.ts",
    packageMain := some "dist/app.js" }

def googleFsNoApp : FsEnv :=
  { existsSync := fun p => p == "./package.json", packageMain := some "dist/app.js" }

/-- Claim C5, witness: the three google rules evaluated on concrete
filesystem environments. -/
theorem googleEntrypointRulesWitness :
    extractFileNames googleFs "." "google" (some [{ handler := "x.y" }]) = .ok ["dist/app.ts"]
    ∧ extractFileNames googleFsNoApp "." "google" none
        = .error (.manifestEntrypointMissing "dist/app.ts")
    ∧ extractFileNames emptyFs "." "google" (some [])
        = extractFromFunctions emptyFs "." (some []) :=
  ⟨googleEntrypointRules.1 googleFs "." (some [{ handler := "x.y" }]) rfl rfl rfl,
   googleEntrypointRules.2.1 googleFsNoApp "." none "dist/app.js" rfl rfl (by decide) rfl,
   googleEntrypointRules.2.2 emptyFs "." (some []) rfl⟩

/-! ### Config resolution: claim theorems -/



/-- Claim C2: for every config file that parses and validates, the returned
options have `rootDir = cwd` whatever the file specified and whether or not a
logger is supplied; and when a logger is supplied and the file's (truthy)
`rootDir` resolves differently from `cwd`, the override warning is logged
alongside the info line. -/
theorem rootDirAlwaysOverridden :
    (∀ (env : TsConfigEnv) (cwd tsconfigFilePath : String) (hasLogger : Bool)
      (opts : CompilerOptions) (logs : List String),
      env.existsSync (pathJoin cwd tsconfigFilePath) = true →
      getTypescriptConfig env cwd tsconfigFilePath hasLogger = .ok (opts, logs) →
      opts.rootDir = some cwd)
    ∧ (∀ (env : TsConfigEnv) (cwd tsconfigFilePath : String) (r : String),
      env.existsSync (pathJoin cwd tsconfigFilePath) = true →
      (env.parseTextToJson (pathJoin cwd tsconfigFilePath)
        (env.readFileText (pathJoin cwd tsconfigFilePath))).error = none →
      (env.parseContent
        (env.parseTextToJson (pathJoin cwd tsconfigFilePath)
          (env.readFileText (pathJoin cwd tsconfigFilePath))).config
        (env.dirname (pathJoin cwd tsconfigFilePath))).errors = [] →
      (env.parseContent
        (env.parseTextToJson (pathJoin cwd tsconfigFilePath)
          (env.readFileText (pathJoin cwd tsconfigFilePath))).config
        (env.dirname (pathJoin cwd tsconfigFilePath))).options.rootDir = some r →
      r ≠ "" →
      env.pathResolve r ≠ env.pathResolve cwd →
      getTypescriptConfig env cwd tsconfigFilePath true
        = .ok ({ (env.parseContent
            (env.parseTextToJson (pathJoin cwd tsconfigFilePath)
              (env.readFileText (pathJoin cwd tsconfigFilePath))).config
            (env.dirname (pathJoin cwd tsconfigFilePath))).options
              with rootDir := some cwd },
          [usingLocalMsg (pathJoin cwd tsconfigFilePath), rootDirWarning])) := by
  constructor
  · intro env cwd tsconfigFilePath hasLogger opts logs hex hok
    rw [getTypescriptConfig, if_pos (by rw [hex])] at hok
    dsimp only at hok
    rcases herr : (env.parseTextToJson (pathJoin cwd tsconfigFilePath)
        (env.readFileText (pathJoin cwd tsconfigFilePath))).error with _ | e
    · rw [herr] at hok
      dsimp only at hok
      by_cases hval : (env.parseContent
          (env.parseTextToJson (pathJoin cwd tsconfigFilePath)
            (env.readFileText (pathJoin cwd tsconfigFilePath))).config
          (env.dirname (pathJoin cwd tsconfigFilePath))).errors.length > 0
      · rw [if_pos hval] at hok
        exact absurd hok (by simp)
      · rw [if_neg hval] at hok
        simp only [Except.ok.injEq, Prod.mk.injEq] at hok
        rw [← hok.1]
    · rw [herr] at hok
      dsimp only at hok
      exact absurd hok (by simp)
  · intro env cwd tsconfigFilePath r hex herr hval hroot hr hres
    rw [getTypescriptConfig, if_pos (by rw [hex])]
    dsimp only
    rw [herr]
    dsimp only
    rw [hval]
    rw [if_neg (by simp)]
    rw [hroot]
    dsimp only
    have hw : (r != "" && (env.pathResolve r != env.pathResolve cwd) && true) = true := by
      simp [bne_iff_ne, hr, hres]
    rw [hw]
    rfl


/-- Claim C4: when no config file exists at `<cwd>/<configFileName>`, the
resolver raises no error and returns the hard-coded default option set with
no log output, and that default carries exactly the documented values
(CommonJS module, ES5 target, ES2020 lib, allowJs/checkJs, the full strict
family, Node resolution, interop and decorator flags, consistent casing,
source maps, `rootDir = "./"`). -/
theorem missingConfigGivesDefaults :
    (∀ (env : TsConfigEnv) (cwd tsconfigFilePath : String) (hasLogger : Bool),
      env.existsSync (pathJoin cwd tsconfigFilePath) = false →
      getTypescriptConfig env cwd tsconfigFilePath hasLogger
        = .ok (makeDefaultTypescriptConfig, []))
    ∧ makeDefaultTypescriptConfig.module = some .CommonJS
    ∧ makeDefaultTypescriptConfig.target = some .ES5
    ∧ makeDefaultTypescriptConfig.lib = some ["ES2020"]
    ∧ makeDefaultTypescriptConfig.allowJs = some true
    ∧ makeDefaultTypescriptConfig.checkJs = some true
    ∧ makeDefaultTypescriptConfig.strict = some true
    ∧ makeDefaultTypescriptConfig.noImplicitAny = some true
    ∧ makeDefaultTypescriptConfig.strictNullChecks = some true
    ∧ makeDefaultTypescriptConfig.strictFunctionTypes = some true
    ∧ makeDefaultTypescriptConfig.strictBindCallApply = some true
    ∧ makeDefaultTypescriptConfig.strictPropertyInitialization = some true
    ∧ makeDefaultTypescriptConfig.noImplicitThis = some true
    ∧ makeDefaultTypescriptConfig.alwaysStrict = some true
    ∧ makeDefaultTypescriptConfig.moduleResolution = some .NodeJs
    ∧ makeDefaultTypescriptConfig.esModuleInterop = some true
    ∧ makeDefaultTypescriptConfig.experimentalDecorators = some true
    ∧ makeDefaultTypescriptConfig.emitDecoratorMetadata = some true
    ∧ makeDefaultTypescriptConfig.forceConsistentCasingInFileNames = some true
    ∧ makeDefaultTypescriptConfig.sourceMap = some true
    ∧ makeDefaultTypescriptConfig.rootDir = some "./" := by
  refine ⟨?_, rfl, rfl, rfl, rfl, rfl, rfl, rfl, rfl, rfl, rfl, rfl, rfl, rfl,
    rfl, rfl, rfl, rfl, rfl, rfl, rfl⟩
  intro env cwd tsconfigFilePath hasLogger hex
  rw [getTypescriptConfig, if_neg (by rw [hex]; simp)]

def noConfigEnv : TsConfigEnv :=
  { existsSync := fun _ => false
    readFileText := fun _ => ""
    parseTextToJson := fun _ _ => { config := "", error := none }
    parseContent := fun _ _ => { options := {}, errors := [] }
    dirname := fun _ => "."
    pathResolve := fun s => s }

/-- Claim C4, witness: the missing-config branch evaluated on an environment
whose filesystem contains nothing. -/
theorem missingConfigGivesDefaultsWitness :
    getTypescriptConfig noConfigEnv "/proj" "tsconfig.json" false
      = .ok (makeDefaultTypescriptConfig, []) :=
  missingConfigGivesDefaults.1 noConfigEnv "/proj" "tsconfig.json" false rfl

def loggedConfigEnv : TsConfigEnv :=
  { existsSync := fun _ => true
    readFileText := fun _ => "cfgtext"
    parseTextToJson := fun _ _ => { config := "cfg", error := none }
    parseContent := fun _ _ => { options := { rootDir := some "/other" }, errors := [] }
    dirname := fun _ => "/proj"
    pathResolve := fun s => s }

/-- Claim C2, witness: a config file whose `rootDir` is `"/other"` resolved
against `cwd = "/proj"` with a logger: the result's `rootDir` is `"/proj"`
and both log lines, the info line and the warning, are produced. -/
theorem rootDirAlwaysOverriddenWitness :
    ({ rootDir := some "/proj" } : CompilerOptions).rootDir = some "/proj"
    ∧ getTypescriptConfig loggedConfigEnv "/proj" "tsconfig.json" true
        = .ok ({ rootDir := some "/proj" },
          [usingLocalMsg (pathJoin "/proj" "tsconfig.json"), rootDirWarning]) :=
  ⟨rootDirAlwaysOverridden.1 loggedConfigEnv "/proj" "tsconfig.json" true
      { rootDir := some "/proj" }
      [usingLocalMsg (pathJoin "/proj" "tsconfig.json"), rootDirWarning] rfl rfl,
   rootDirAlwaysOverridden.2 loggedConfigEnv "/proj" "tsconfig.json" "/other"
      rfl rfl rfl rfl (by decide) (by decide)⟩

/-! ### Compilation runner: claim theorems -/


lemma jsEndsWith_excl (f a b : String) (hab : ¬ a.data <:+ b.data)
    (hba : ¬ b.data <:+ a.data) (ha : jsEndsWith f a = true) :
    jsEndsWith f b = false := by
  rcases hb : jsEndsWith f b with _ | _
  · rfl
  · have h1 := List.isSuffixOf_iff_suffix.mp ha
    have h2 := List.isSuffixOf_iff_suffix.mp hb
    rcases List.suffix_or_suffix_of_suffix h1 h2 with h | h
    · exact absurd h hab
    · exact absurd h hba

/-- Claim C3: `run` fails with the compilation-failed error exactly when the
engine's emit result has the emit-skipped flag set, and the printed
diagnostics are always the full in-order rendering of pre-emit plus
emit-time diagnostics, identical in the success and failure cases - so the
outcome is decided solely by the flag, never by the diagnostics, and all
diagnostics are printed also on the failing path. -/
theorem runEmitSkipDecides :
    ∀ (engine : List String → CompilerOptions → Program) (fileNames : List String)
      (options : CompilerOptions),
      ((run engine fileNames options).value = .error .compilationFailed
        ↔ (engine fileNames { options with listEmittedFiles := some true
            }).emitResult.emitSkipped = true)
      ∧ (run engine fileNames options).printed
          = ((engine fileNames { options with listEmittedFiles := some true
              }).preEmitDiagnostics
            ++ (engine fileNames { options with listEmittedFiles := some true
              }).emitResult.diagnostics).filterMap renderDiagnostic := by
  intro engine fileNames options
  constructor
  · rw [run]
    rcases hs : (engine fileNames { options with listEmittedFiles := some true
        }).emitResult.emitSkipped with _ | _
    · rw [if_neg (by simp)]
      simp
    · rw [if_pos rfl]
      simp
  · rw [run]
    split <;> rfl



/-- Claim C6, amended: `run` mutates exactly one field of the caller's
options object - `listEmittedFiles` is forced to `true` - and every other
field holds the same value after `run` returns as before the call. -/
theorem runMutatesOnlyListEmittedFiles :
    ∀ (engine : List String → CompilerOptions → Program) (fileNames : List String)
      (options : CompilerOptions),
      (run engine fileNames options).options
        = { options with listEmittedFiles := some true }
      ∧ (run engine fileNames options).options.listEmittedFiles = some true
      ∧ (run engine fileNames options).options.module = options.module
      ∧ (run engine fileNames options).options.target = options.target
      ∧ (run engine fileNames options).options.lib = options.lib
      ∧ (run engine fileNames options).options.rootDir = options.rootDir
      ∧ (run engine fileNames options).options.allowJs = options.allowJs
      ∧ (run engine fileNames options).options.checkJs = options.checkJs
      ∧ (run engine fileNames options).options.strict = options.strict
      ∧ (run engine fileNames options).options.noImplicitAny = options.noImplicitAny
      ∧ (run engine fileNames options).options.strictNullChecks = options.strictNullChecks
      ∧ (run engine fileNames options).options.strictFunctionTypes = options.strictFunctionTypes
      ∧ (run engine fileNames options).options.strictBindCallApply = options.strictBindCallApply
      ∧ (run engine fileNames options).options.strictPropertyInitialization
          = options.strictPropertyInitialization
      ∧ (run engine fileNames options).options.noImplicitThis = options.noImplicitThis
      ∧ (run engine fileNames options).options.alwaysStrict = options.alwaysStrict
      ∧ (run engine fileNames options).options.noUnusedLocals = options.noUnusedLocals
      ∧ (run engine fileNames options).options.noUnusedParameters = options.noUnusedParameters
      ∧ (run engine fileNames options).options.noImplicitReturns = options.noImplicitReturns
      ∧ (run engine fileNames options).options.noFallthroughCasesInSwitch
          = options.noFallthroughCasesInSwitch
      ∧ (run engine fileNames options).options.moduleResolution = options.moduleResolution
      ∧ (run engine fileNames options).options.esModuleInterop = options.esModuleInterop
      ∧ (run engine fileNames options).options.experimentalDecorators
          = options.experimentalDecorators
      ∧ (run engine fileNames options).options.emitDecoratorMetadata
          = options.emitDecoratorMetadata
      ∧ (run engine fileNames options).options.forceConsistentCasingInFileNames
          = options.forceConsistentCasingInFileNames
      ∧ (run engine fileNames options).options.preserveConstEnums = options.preserveConstEnums
      ∧ (run engine fileNames options).options.sourceMap = options.sourceMap
      ∧ (run engine fileNames options).options.extra = options.extra := by
  intro engine fileNames options
  have h : (run engine fileNames options).options
      = { options with listEmittedFiles := some true } := by
    rw [run]
    split <;> rfl
  rw [h]
  exact ⟨rfl, rfl, rfl, rfl, rfl, rfl, rfl, rfl, rfl, rfl, rfl, rfl, rfl, rfl,
    rfl, rfl, rfl, rfl, rfl, rfl, rfl, rfl, rfl, rfl, rfl, rfl, rfl, rfl⟩

def trivialProgram : Program :=
  { preEmitDiagnostics := []
    emitResult := { emitSkipped := false, emittedFiles := some [], diagnostics := [] } }

def trivialEngine : List String → CompilerOptions → Program := fun _ _ => trivialProgram

/-- Claim C6, counterexample: an options object passed to `run` with
`listEmittedFiles = false` has that field equal to `true` after the call, so
`run` does mutate the caller's object beyond the config resolver's `rootDir`
override. -/
theorem runMutatesCallerOptions :
    ({ listEmittedFiles := some false } : CompilerOptions).listEmittedFiles = some false
    ∧ (run trivialEngine [] { listEmittedFiles := some false }).options.listEmittedFiles
        = some true :=
  ⟨rfl, rfl⟩

def zeroOffsetFile : SourceFile :=
  { fileName := "app.ts", getLineAndCharacterOfPosition := fun _ => (0, 0) }

def zeroOffsetDiagnostic : Diagnostic :=
  { file := some zeroOffsetFile, start := some 0, messageText := "boom" }

def zeroOffsetEngine : List String → CompilerOptions → Program := fun _ _ =>
  { preEmitDiagnostics := [zeroOffsetDiagnostic]
    emitResult := { emitSkipped := false, emittedFiles := some [], diagnostics := [] } }

/-- Claim C7, counterexample: a diagnostic that carries a source file and
the start offset `0` is not printed - `0` is falsy in JS, so the truthiness
guard `diagnostic.file && diagnostic.start` skips it. -/
theorem zeroOffsetDiagnosticUnprinted :
    zeroOffsetDiagnostic.file.isSome = true
    ∧ zeroOffsetDiagnostic.start.isSome = true
    ∧ (run zeroOffsetEngine ["app.ts"] {}).printed = [] :=
  ⟨rfl, rfl, rfl⟩

/-- Claim C7, amended: the printed output is the in-order rendering of all
diagnostics, where a diagnostic with a source file and a nonzero start
offset renders to exactly `"<file> (<line>,<col>): <message>"` with 1-based
line and column, and a diagnostic lacking a file, lacking an offset, or
with offset `0` renders to nothing. -/
theorem diagnosticPrintingContract :
    (∀ (engine : List String → CompilerOptions → Program) (fileNames : List String)
      (options : CompilerOptions),
      (run engine fileNames options).printed
        = ((engine fileNames { options with listEmittedFiles := some true
            }).preEmitDiagnostics
          ++ (engine fileNames { options with listEmittedFiles := some true
            }).emitResult.diagnostics).filterMap renderDiagnostic)
    ∧ (∀ (d : Diagnostic) (f : SourceFile) (s : Nat),
      d.file = some f → d.start = some s → s ≠ 0 →
      renderDiagnostic d
        = some (f.fileName ++ " (" ++ toString ((f.getLineAndCharacterOfPosition s).1 + 1)
            ++ "," ++ toString ((f.getLineAndCharacterOfPosition s).2 + 1) ++ "): "
            ++ d.messageText))
    ∧ (∀ d : Diagnostic, d.file = none ∨ d.start = none ∨ d.start = some 0 →
      renderDiagnostic d = none) := by
  refine ⟨?_, ?_, ?_⟩
  · intro engine fileNames options
    rw [run]
    split <;> rfl
  · intro d f s hf hs hs0
    simp only [renderDiagnostic, hf, hs]
    rw [if_pos (by simp only [bne_iff_ne]; exact hs0)]
  · intro d hcase
    rcases hf : d.file with _ | f <;> rcases hs : d.start with _ | s <;>
      simp_all [renderDiagnostic]

/-- Claim C9: a successful `run` (emit not skipped) returns the engine's
emitted-file list filtered to the paths that end in `".js"`, and everything
passing the filter ends in `".js"` and cannot end in `".map"` or `".d.ts"`,
so source-map and declaration outputs are excluded even when reported. -/
theorem emittedFilesFiltered :
    (∀ (engine : List String → CompilerOptions → Program) (fileNames : List String)
      (options : CompilerOptions) (l : List String),
      (engine fileNames { options with listEmittedFiles := some true
        }).emitResult.emitSkipped = false →
      (engine fileNames { options with listEmittedFiles := some true
        }).emitResult.emittedFiles = some l →
      (run engine fileNames options).value
        = .ok (some (l.filter (fun f => jsEndsWith f ".js"))))
    ∧ (∀ (l : List String) (f : String),
      f ∈ l.filter (fun f => jsEndsWith f ".js") →
      jsEndsWith f ".js" = true ∧ jsEndsWith f ".map" = false
        ∧ jsEndsWith f ".d.ts" = false) := by
  constructor
  · intro engine fileNames options l hskip hemit
    rw [run]
    rw [if_neg (by rw [hskip]; simp)]
    rw [hemit]
    rfl
  · intro l f hmem
    have hfil := (List.mem_filter.mp hmem).2
    simp only [decide_eq_true_eq] at hfil
    refine ⟨hfil, ?_, ?_⟩
    · exact jsEndsWith_excl f ".js" ".map" (by decide) (by decide) hfil
    · exact jsEndsWith_excl f ".js" ".d.ts" (by decide) (by decide) hfil

def emitEngine : List String → CompilerOptions → Program := fun _ _ =>
  { preEmitDiagnostics := [],
    emitResult :=
      { emitSkipped := false,
        emittedFiles := some ["out/app.js", "out/app.js.map", "out/app.d.ts"],
        diagnostics := [] } }

/-- Claim C9, witness: an engine reporting `out/app.js`, `out/app.js.map`
and `out/app.d.ts` as emitted yields exactly `["out/app.js"]`. -/
theorem emittedFilesFilteredWitness :
    (run emitEngine ["app.ts"] {}).value = .ok (some ["out/app.js"])
    ∧ (jsEndsWith "out/app.js" ".js" = true ∧ jsEndsWith "out/app.js" ".map" = false
        ∧ jsEndsWith "out/app.js" ".d.ts" = false) := by
  constructor
  · have h := emittedFilesFiltered.1 emitEngine ["app.ts"] {}
      ["out/app.js", "out/app.js.map", "out/app.d.ts"] (by rfl) (by rfl)
    rw [h]
    rfl
  · exact emittedFilesFiltered.2 ["out/app.js", "out/app.js.map", "out/app.d.ts"]
      "out/app.js" (by decide)

def diagFile : SourceFile :=
  { fileName := "src/app.ts", getLineAndCharacterOfPosition := fun _ => (4, 7) }

def diagAt12 : Diagnostic :=
  { file := some diagFile, start := some 12, messageText := "type error" }

/-- Claim C7, witness: a located diagnostic at offset 12 with 0-based
line/character `(4,7)` prints as `"src/app.ts (5,8): type error"`, and a
file-less diagnostic prints nothing. -/
theorem diagnosticPrintingContractWitness :
    renderDiagnostic diagAt12 = some "src/app.ts (5,8): type error"
    ∧ renderDiagnostic { file := none, start := some 3, messageText := "global" } = none := by
  constructor
  · have h := diagnosticPrintingContract.2.1 diagAt12 diagFile 12 rfl rfl (by decide)
    rw [h]
    rfl
  · exact diagnosticPrintingContract.2.2
      { file := none, start := some 3, messageText := "global" } (Or.inl rfl)

end SlsTsPlugin
